import Mathlib

/-!
Panic recovery middleware (`recovery.go`)

A shallow embedding of `RecoveryWithWriter` and of the library operations it
calls (gin, go-errors and the Go standard library in their current releases),
followed by the properties of the middleware.

Go strings are sequences of characters.  A value recovered from a panic is any
non-nil Go value: a string, another non-error value, or an error, among them
nil pointers of the error types the middleware inspects, errors with a nil
`Err` field, and errors whose `Error()` panics.

The effects of one call of the middleware are collected in an `Outcome`: the
request context when the call ends, the entries handed to the log sink, the
invocations of the hook, and the panic leaving the call, if any.
-/

namespace recovery

/-- Go `string`. -/
abbrev GoString := List Char

/-- Facts the middleware reads from the Go runtime and libraries at the moment
of recovery: the case mapping of `unicode.ToLower` outside ASCII, the rendered
call stack captured by `errors.Wrap`, and the date and time header the
standard logger puts in front of a message under `log.LstdFlags`. -/
structure Runtime where
  unicodeToLower : Char → Char
  callers : GoString
  now : GoString

/-! ## package strings -/

/-- Case mapping of one rune, `unicode.ToLower`: ASCII capitals move by
`'a' - 'A'`, other ASCII runes stay, the rest follows the Unicode tables. -/
def lowerRune (rt : Runtime) (r : Char) : Char :=
  if r.toNat < 128 then
    if 65 ≤ r.toNat ∧ r.toNat ≤ 90 then Char.ofNat (r.toNat + 32) else r
  else rt.unicodeToLower r

/-- Go `strings.ToLower`. -/
def ToLower (rt : Runtime) (s : GoString) : GoString :=
  s.map (lowerRune rt)

/-- Go `strings.Index`: position of the first instance of `sep` in `s`,
`none` for Go's `-1`. -/
def Index : GoString → GoString → Option Nat
  | [], sep => if sep.isPrefixOf [] then some 0 else none
  | c :: cs, sep =>
    if sep.isPrefixOf (c :: cs) then some 0 else (Index cs sep).map (· + 1)

/-- Go `strings.Contains`: `Index(s, substr) >= 0`. -/
def Contains (s substr : GoString) : Bool :=
  (Index s substr).isSome

/-- The loop of Go `strings.genSplit` for a non-empty separator: at most `n`
times, cut `s` at the first separator; the rest is the last piece. -/
def genSplit : Nat → GoString → GoString → List GoString
  | 0, s, _ => [s]
  | n + 1, s, sep =>
    match Index s sep with
    | none => [s]
    | some m => s.take m :: genSplit n (s.drop (m + sep.length)) sep

/-- Go `strings.Split`.  An empty separator explodes `s` into its runes.
Otherwise Go bounds the loop by `Count(s, sep)`, which never exceeds `len(s)`,
and the loop stops at the first miss. -/
def Split (s sep : GoString) : List GoString :=
  if sep = [] then s.map (fun r => [r]) else genSplit s.length s sep

/-! ## errors -/

deriving instance DecidableEq for Except

mutual
/-- Non-nil values of the Go interface `error`, by dynamic type.
`syscallError` and `nilSyscallError` are a `*os.SyscallError` and its nil
pointer, `opError` and `nilOpError` a `*net.OpError` (its addresses given by
their `String()` text), `wrapped` and `nilWrapped` a `*errors.Error` of
go-errors, `ginError` and `nilGinError` a `*gin.Error`.  `plain` is an error of
any other type whose `Error()` returns `msg`, `faulty` one whose `Error()`
panics with a value of message `thrown`; these two have no `Unwrap` and no
`As` method. -/
inductive GoError where
  | plain (msg : GoString)
  | faulty (thrown : GoString)
  | nilSyscallError
  | syscallError (Syscall : GoString) (Err : ErrField)
  | nilOpError
  | opError (Op Net : GoString) (Source Addr : Option GoString) (Err : ErrField)
  | nilWrapped
  | wrapped (Err : ErrField) (stack : GoString) (lead : GoString)
  | nilGinError
  | ginError (Err : ErrField) (typ : Nat)
  deriving DecidableEq

/-- A field or variable of type `error`: the nil interface or an error. -/
inductive ErrField where
  | nil
  | val (e : GoError)
  deriving DecidableEq
end

/-- Message of the run-time panic of a nil dereference. -/
def nilDereference : GoString :=
  "runtime error: invalid memory address or nil pointer dereference".toList

/-- Message of the run-time panic of a value method called through a nil
pointer. -/
def nilValueMethod : GoString :=
  "value method gin.Error.Error called using nil *Error pointer".toList

mutual
/-- The `Error()` method of each error type: the text it returns, or the
message of the value it panics with.  `(*net.OpError).Error` answers `<nil>`
on a nil receiver; the other methods read a field of the receiver first. -/
def GoError.Error : GoError → Except GoString GoString
  | .plain msg => .ok msg
  | .faulty thrown => .error thrown
  | .nilSyscallError => .error nilDereference
  | .syscallError sc e =>
    match e.Error with
    | .ok m => .ok (sc ++ ": ".toList ++ m)
    | .error t => .error t
  | .nilOpError => .ok "<nil>".toList
  | .opError op net src addr e =>
    let s := op
    let s := if net ≠ [] then s ++ " ".toList ++ net else s
    let s := match src with
      | some a => s ++ " ".toList ++ a
      | none => s
    let s := match addr with
      | some a => (if src.isSome then s ++ "->".toList else s ++ " ".toList) ++ a
      | none => s
    match e.Error with
    | .ok m => .ok (s ++ ": ".toList ++ m)
    | .error t => .error t
  | .nilWrapped => .error nilDereference
  | .wrapped e _ p =>
    match e.Error with
    | .ok m => .ok (if p ≠ [] then p ++ ": ".toList ++ m else m)
    | .error t => .error t
  | .nilGinError => .error nilValueMethod
  | .ginError e _ => e.Error

/-- The call `e.Error()` on a field of type `error`: a nil interface has no
method to call. -/
def ErrField.Error : ErrField → Except GoString GoString
  | .nil => .error nilDereference
  | .val e => e.Error
end

mutual
/-- The walk of `errors.As(err, &target)` for a target of type `*gin.Error`:
the first `*gin.Error` on the chain of `Unwrap()`, `none` when the chain ends
without one, or the message of the panic of an `Unwrap()` on a nil receiver. -/
def GoError.asGinError : GoError → Except GoString (Option GoError)
  | .plain _ => .ok none
  | .faulty _ => .ok none
  | .nilSyscallError => .error nilDereference
  | .syscallError _ e => e.asGinError
  | .nilOpError => .error nilDereference
  | .opError _ _ _ _ e => e.asGinError
  | .nilWrapped => .error nilDereference
  | .wrapped e _ _ => e.asGinError
  | .nilGinError => .ok (some .nilGinError)
  | .ginError e t => .ok (some (.ginError e t))

/-- The walk of `errors.As` from a field: it ends at a nil interface. -/
def ErrField.asGinError : ErrField → Except GoString (Option GoError)
  | .nil => .ok none
  | .val e => e.asGinError
end

/-- Whether the error is a nil pointer. -/
def GoError.isNilPointer : GoError → Bool
  | .nilSyscallError => true
  | .nilOpError => true
  | .nilWrapped => true
  | .nilGinError => true
  | _ => false

/-- A value handed to `panic` and returned by `recover()`: a string, a value
of another non-error type (given by its `%v` and `%s` renderings), or an
error. -/
inductive RawFailure where
  | str (s : GoString)
  | other (v s : GoString)
  | error (e : GoError)
  deriving DecidableEq

/-- The value of a run-time panic with the message `msg`. -/
def runtimePanic (msg : GoString) : RawFailure :=
  .error (.plain msg)

/-- The type assertion `err.(error)`: `none` when it fails. -/
def RawFailure.asError : RawFailure → Option GoError
  | .error e => some e
  | _ => none

/-- The type assertion `err.(*net.OpError)`: the pointer, which may be nil. -/
def RawFailure.asOpError : RawFailure → Option GoError
  | .error (.opError op net src addr inner) => some (.opError op net src addr inner)
  | .error .nilOpError => some .nilOpError
  | _ => none

/-- The field read `ne.Err` on a `*net.OpError`: a nil pointer cannot be
read. -/
def GoError.Err : GoError → Except GoString ErrField
  | .opError _ _ _ _ inner => .ok inner
  | _ => .error nilDereference

/-- The type assertion `ne.Err.(*os.SyscallError)`: the pointer, which may be
nil. -/
def ErrField.asSyscallError : ErrField → Option GoError
  | .val (.syscallError sc inner) => some (.syscallError sc inner)
  | .val .nilSyscallError => some .nilSyscallError
  | _ => none

/-- Rendering under the verb `%s`.  The package fmt recovers a panic of
`Error()`: a nil pointer prints as `<nil>`, any other receiver as a note with
the panic value. -/
def fmtS : RawFailure → GoString
  | .str s => s
  | .other _ s => s
  | .error e =>
    match e.Error with
    | .ok m => m
    | .error t =>
      if e.isNilPointer then "<nil>".toList
      else "%!s(PANIC=Error method: ".toList ++ t ++ ")".toList

/-- The `*errors.Error` of go-errors as the middleware holds it: a nil pointer,
or the wrapped error, the rendered stack and the optional leading text. -/
inductive NormalizedError where
  | nilPointer
  | mk (Err : ErrField) (stack : GoString) (lead : GoString)
  deriving DecidableEq

/-- go-errors `Wrap`: an `*errors.Error` is returned as it is, an error is
wrapped, any other value becomes `fmt.Errorf("%v", e)`; the stack is the one
captured at the call. -/
def Wrap (rt : Runtime) (e : RawFailure) : NormalizedError :=
  match e with
  | .error (.wrapped err stack p) => .mk err stack p
  | .error .nilWrapped => .nilPointer
  | .error err => .mk (.val err) rt.callers []
  | .str s => .mk (.val (.plain s)) rt.callers []
  | .other v _ => .mk (.val (.plain v)) rt.callers []

/-- go-errors `(*Error).Error`. -/
def NormalizedError.Error : NormalizedError → Except GoString GoString
  | .nilPointer => .error nilDereference
  | .mk e _ p =>
    match e.Error with
    | .ok m => .ok (if p ≠ [] then p ++ ": ".toList ++ m else m)
    | .error t => .error t

/-- go-errors `(*Error).Stack`. -/
def NormalizedError.Stack : NormalizedError → Except GoString GoString
  | .nilPointer => .error nilDereference
  | .mk _ stack _ => .ok stack

/-! ## gin context -/

/-- The part of `*gin.Context` the middleware touches: the dump of the request
line and headers (`httputil.DumpRequest(c.Request, false)`), the status and
size of the response writer (`-1` while nothing is written), the position in
the handler chain, and the `*gin.Error` values recorded on the context. -/
structure Context where
  Request : GoString
  status : Nat
  size : Int
  index : Int
  Errors : List GoError
  deriving DecidableEq

/-- gin `abortIndex`, `math.MaxInt8 >> 1`. -/
def abortIndex : Int := 63

/-- gin `ErrorTypePrivate`. -/
def ErrorTypePrivate : Nat := 1

/-- gin `(*Context).IsAborted`. -/
def Context.IsAborted (c : Context) : Bool :=
  decide (abortIndex ≤ c.index)

/-- gin `(*Context).Abort`. -/
def Context.Abort (c : Context) : Context :=
  { c with index := abortIndex }

/-- gin `(*responseWriter).Written`. -/
def Context.Written (c : Context) : Bool :=
  decide (c.size ≠ -1)

/-- gin `(*Context).Error` for a non-nil error: the first `*gin.Error` that
`errors.As` finds on the chain of `err`, or else a new private `*gin.Error`
around `err`, is appended to `c.Errors`.  The call panics when the walk does. -/
def Context.Error (c : Context) (err : GoError) : Except RawFailure Context :=
  match err.asGinError with
  | .error t => .error (runtimePanic t)
  | .ok (some parsedError) => .ok { c with Errors := c.Errors ++ [parsedError] }
  | .ok none => .ok { c with Errors := c.Errors ++ [.ginError (.val err) ErrorTypePrivate] }

/-- gin `(*Context).Status`, that is `(*responseWriter).WriteHeader`: a positive
code other than the current one becomes the status, unless the header was
written already. -/
def Context.Status (c : Context) (code : Nat) : Context :=
  if 0 < code ∧ c.status ≠ code then
    if c.Written then c else { c with status := code }
  else c

/-- gin `(*responseWriter).WriteHeaderNow`: the header goes out unless
something was written before. -/
def Context.WriteHeaderNow (c : Context) : Context :=
  if c.Written then c else { c with size := 0 }

/-- gin `(*Context).AbortWithStatus`: `Status(code)`, `WriteHeaderNow()`,
`Abort()`. -/
def Context.AbortWithStatus (c : Context) (code : Nat) : Context :=
  ((c.Status code).WriteHeaderNow).Abort

/-- Go `http.StatusInternalServerError`. -/
def StatusInternalServerError : Nat := 500

/-! ## logging -/

/-- Go `io.Writer`: `Write` answers with a byte count and an optional error. -/
abbrev Writer := GoString → Nat × Option GoError

/-- Go `*log.Logger` built by `log.New(out, lead, log.LstdFlags)`. -/
structure Logger where
  out : Writer
  lead : GoString

/-- Go `log.New` with `log.LstdFlags`. -/
def New (out : Writer) (lead : GoString) : Logger :=
  ⟨out, lead⟩

/-- The bytes the logger hands to its writer for the message `msg`: the leading
text, the date and time, the message, and a newline when the message does not
end in one. -/
def Logger.entry (rt : Runtime) (l : Logger) (msg : GoString) : GoString :=
  l.lead ++ rt.now ++ msg ++ (if msg.getLast? = some '\n' then [] else ['\n'])

/-- Go `(*Logger).Output`: one `Write` of the entry; the entry written and the
error `Write` answered. -/
def Logger.Output (rt : Runtime) (l : Logger) (msg : GoString) : GoString × Option GoError :=
  (l.entry rt msg, (l.out (l.entry rt msg)).2)

/-- Go `(*Logger).Printf` on a formatted message: `Output`, whose error is
dropped.  The value is the entry written. -/
def Logger.Printf (rt : Runtime) (l : Logger) (msg : GoString) : GoString :=
  (l.Output rt msg).1

/-! ## the middleware -/

/-- The rest of the handler chain, `c.Next()`: the context as the chain leaves
it, and the value recovered when the chain panics. -/
abbrev Handler := Context → Context × Option RawFailure

/-- The caller-supplied hook `f`, called with the context and the normalized
error: the context as the call leaves it, and the panic value when the call
panics, `none` when it returns. -/
abbrev Hook := Context → NormalizedError → Context × Option RawFailure

/-- Effects of one call of the middleware: `ctx` is the context when the call
ends, `logged` the entries given to the sink in order, `hookCalls` the
invocations of the hook with the arguments they were handed, `panic` the value
with which the call panics, `none` when it returns. -/
structure Outcome where
  ctx : Context
  logged : List GoString
  hookCalls : List (Context × NormalizedError)
  panic : Option RawFailure
  deriving DecidableEq

/-- Run-time panic of an index expression out of range. -/
def indexOutOfRange : RawFailure :=
  runtimePanic "runtime error: index out of range [0] with length 0".toList

/-- Run-time panic of a failed type assertion to `error`. -/
def interfaceConversion : RawFailure :=
  runtimePanic "interface conversion: interface \x7b\x7d is not error: missing method Error".toList

/-- The flag `brokenPipe` (lines 33-41): set when the recovered value is a
`*net.OpError` whose `Err` is a `*os.SyscallError` whose lower-cased message
contains one of the two texts.  The field read `ne.Err` (line 36) and the call
`se.Error()` (line 37) can panic. -/
def brokenPipe (rt : Runtime) (err : RawFailure) : Except RawFailure Bool :=
  match err.asOpError with
  | some ne =>
    match ne.Err with
    | .error t => .error (runtimePanic t)
    | .ok neErr =>
      match neErr.asSyscallError with
      | some se =>
        match se.Error with
        | .error t => .error (runtimePanic t)
        | .ok msg =>
          .ok (Contains (ToLower rt msg) "broken pipe".toList
            || Contains (ToLower rt msg) "connection reset by peer".toList)
      | none => .ok false
  | none => .ok false

/-- The loop over `headers` (lines 46-51): the entry at `idx` is overwritten
with `current[0] + ": *"` when `current[0]` is `Authorization`.  `none` when
the index expression `current[0]` is out of range. -/
def redactHeaders : List GoString → Option (List GoString)
  | [] => some []
  | header :: rest =>
    let current := Split header ":".toList
    match current[0]? with
    | none => none
    | some first =>
      let line := if first = "Authorization".toList then first ++ ": *".toList else header
      (redactHeaders rest).map (fun tail => line :: tail)

/-- The message of `logger.Printf` on the broken path (line 53): the recovered
value under `%s`, a newline, `httpRequest`, the reset sequence. -/
def brokenMessage (httpRequest : GoString) (err : RawFailure) : GoString :=
  fmtS err ++ "\n".toList ++ httpRequest ++ "\x1b[0m".toList

/-- The message of `logger.Printf` on the normal path (line 56) for the
results `msg` of `goErr.Error()` and `stack` of `goErr.Stack()`. -/
def recoveredMessage (httpRequest msg stack : GoString) : GoString :=
  let reset := [Char.ofNat 27, Char.ofNat 91, Char.ofNat 48, Char.ofNat 109]
  "[Recovery] panic recovered:\n\n".toList ++ httpRequest ++ msg
    ++ "\n\n".toList ++ stack ++ reset

/-- Lines 42-58: nothing without a logger; otherwise the request is dumped,
the header loop runs, and one entry is printed.  Both calls of `Printf` print
`httpRequest`, the dump as `DumpRequest` returned it.  On the normal path the
arguments `goErr.Error()` and `goErr.Stack()` are evaluated first and can
panic. -/
def logStage (rt : Runtime) (logger : Option Logger) (c : Context) (err : RawFailure)
    (goErr : NormalizedError) (broken : Bool) : Except RawFailure (List GoString) :=
  match logger with
  | none => .ok []
  | some l =>
    let httpRequest := c.Request
    match redactHeaders (Split httpRequest "\r\n".toList) with
    | none => .error indexOutOfRange
    | some _ =>
      if broken then
        .ok [l.Printf rt (brokenMessage httpRequest err)]
      else
        match goErr.Error with
        | .error t => .error (runtimePanic t)
        | .ok msg =>
          match goErr.Stack with
          | .error t => .error (runtimePanic t)
          | .ok stack => .ok [l.Printf rt (recoveredMessage httpRequest msg stack)]

/-- Lines 60-66: on a broken connection the error is recorded and the context
aborted, otherwise the context is aborted with status 500. -/
def respondStage (c : Context) (err : RawFailure) (broken : Bool) : Except RawFailure Context :=
  if broken then
    match err.asError with
    | none => .error interfaceConversion
    | some e =>
      match c.Error e with
      | .error p => .error p
      | .ok c2 => .ok c2.Abort
  else
    .ok (c.AbortWithStatus StatusInternalServerError)

/-- The body of the deferred function for a recovered value `err` (lines
30-68), run on the context `c` as the handler chain left it.  A panic of one of
its steps ends it there. -/
def recovered (rt : Runtime) (f : Hook) (logger : Option Logger) (c : Context)
    (err : RawFailure) : Outcome :=
  let goErr := Wrap rt err
  match brokenPipe rt err with
  | .error p => { ctx := c, logged := [], hookCalls := [], panic := some p }
  | .ok broken =>
    match logStage rt logger c err goErr broken with
    | .error p => { ctx := c, logged := [], hookCalls := [], panic := some p }
    | .ok logged =>
      match respondStage c err broken with
      | .error p => { ctx := c, logged := logged, hookCalls := [], panic := some p }
      | .ok c2 =>
        { ctx := (f c2 goErr).1, logged := logged, hookCalls := [(c2, goErr)],
          panic := (f c2 goErr).2 }

/-- The middleware `RecoveryWithWriter(f, out)` applied to a context whose
remaining handler chain is `next`.  A nil `out` is `none`. -/
def RecoveryWithWriter (rt : Runtime) (f : Hook) (out : Option Writer) (next : Handler)
    (c : Context) : Outcome :=
  let logger := out.map (fun w => New w "\n\n\x1b[31m".toList)
  match next c with
  | (c1, none) => { ctx := c1, logged := [], hookCalls := [], panic := none }
  | (c1, some err) => recovered rt f logger c1 err

/-- gin `DefaultErrorWriter`, the standard error stream: it takes every write. -/
def DefaultErrorWriter : Writer :=
  fun p => (p.length, none)

/-- The middleware `Recovery(f)` (lines 17-19). -/
def Recovery (rt : Runtime) (f : Hook) (next : Handler) (c : Context) : Outcome :=
  RecoveryWithWriter rt f (some DefaultErrorWriter) next c

/-- The first segment of a line in the words of the redaction rule: the text
before the first colon, or the whole line when it has none. -/
def firstSegment (line : GoString) : GoString :=
  line.takeWhile (fun r => r != ':')

/-- The redaction rule in the words of the specification: a line whose first
segment is `Authorization` becomes `Authorization: *`, any other line stays. -/
def redactRule (line : GoString) : GoString :=
  if firstSegment line = "Authorization".toList then "Authorization: *".toList else line

/-- The steps of the deferred function before the hook return: the
classification completes, and then on the normal path, when a sink is set,
`goErr.Error()` returns (line 56), and on the broken path the walk of
`errors.As` inside `c.Error` returns (line 62). -/
def stepsReturn (rt : Runtime) (out : Option Writer) (err : RawFailure) : Prop :=
  (brokenPipe rt err = .ok false ∧ (out = none ∨ ∃ m, (Wrap rt err).Error = .ok m)) ∨
  (brokenPipe rt err = .ok true ∧ ∃ e found, err = .error e ∧ e.asGinError = .ok found)

mutual
/-- An error with no nil pointer, no nil `Err` field and no panicking `Error()`
anywhere on its chain. -/
def GoError.sound : GoError → Bool
  | .plain _ => true
  | .faulty _ => false
  | .nilSyscallError => false
  | .syscallError _ e => e.sound
  | .nilOpError => false
  | .opError _ _ _ _ e => e.sound
  | .nilWrapped => false
  | .wrapped e _ _ => e.sound
  | .nilGinError => false
  | .ginError e _ => e.sound

/-- A field that holds a sound error. -/
def ErrField.sound : ErrField → Bool
  | .nil => false
  | .val e => e.sound
end

/-- A recovered value that is no error, or a sound one. -/
def RawFailure.sound : RawFailure → Bool
  | .error e => e.sound
  | _ => true

/-! ## sample data -/

/-- A runtime whose Unicode case mapping leaves runes alone. -/
def sampleRuntime : Runtime :=
  ⟨id, "goroutine 1 [running]:\n".toList, "2019/03/01 10:00:00 ".toList⟩

/-- A dumped request with an `Authorization` header. -/
def sampleRequest : GoString :=
  "GET /ping HTTP/1.1\r\nHost: example.com\r\nAuthorization: Bearer xyz\r\n\r\n".toList

/-- A fresh context for `sampleRequest`. -/
def sampleContext : Context :=
  ⟨sampleRequest, 200, -1, -1, []⟩

/-- A writer that accepts everything. -/
def sampleWriter : Writer :=
  fun p => (p.length, none)

/-- A hook that returns and leaves the context alone. -/
def sampleHook : Hook :=
  fun c _ => (c, none)

/-- A hook that answers with status 500 and a body of four bytes, as
`c.String(500, "oops")` does. -/
def renderHook : Hook :=
  fun c _ =>
    let c1 := (c.Status 500).WriteHeaderNow
    ({ c1 with size := c1.size + 4 }, none)

/-- A handler chain that panics with the string `boom`. -/
def boomHandler : Handler :=
  fun c => ({ c with index := 0 }, some (.str "boom".toList))

/-- The error of a write on a connection the peer has closed. -/
def brokenPipeError : GoError :=
  .opError "write".toList "tcp".toList none none
    (.val (.syscallError "write".toList (.val (.plain "broken pipe".toList))))

/-- A network error whose system-call error wraps a public `*gin.Error`. -/
def ginChainError : GoError :=
  .opError "write".toList "tcp".toList none none
    (.val (.syscallError "write".toList
      (.val (.ginError (.val (.plain "broken pipe".toList)) 2))))

/-- A network error whose system-call error is named `broken pipe` and wraps a
nil `*net.OpError`. -/
def nilInChainError : GoError :=
  .opError "write".toList "tcp".toList none none
    (.val (.syscallError "broken pipe".toList (.val .nilOpError)))

/-- A handler chain that panics with the error `e`. -/
def errorHandler (e : GoError) : Handler :=
  fun c => ({ c with index := 0 }, some (.error e))

/-- A handler chain that panics with `brokenPipeError`. -/
def brokenHandler : Handler :=
  fun c => ({ c with index := 0 }, some (.error brokenPipeError))

/-- A handler chain that returns. -/
def quietHandler : Handler :=
  fun c => ({ c with index := 0, status := 204 }, none)

/-! ## library lemmas -/

theorem Index_nil_of_ne_nil (sep : GoString) (h : sep ≠ []) : Index [] sep = none := by
  cases sep with
  | nil => exact absurd rfl h
  | cons a as => simp [Index, List.isPrefixOf]

/-- Fuel beyond the length of the string changes nothing: the bound in `Split`
is enough for the loop to run to its end. -/
theorem genSplit_fuel (sep : GoString) (hsep : sep ≠ []) (n m : Nat) (s : GoString)
    (hn : s.length ≤ n) (hm : s.length ≤ m) : genSplit n s sep = genSplit m s sep := by
  induction n generalizing m s with
  | zero =>
    have hs : s = [] := List.length_eq_zero.mp (Nat.le_zero.mp hn)
    subst hs
    cases m with
    | zero => rfl
    | succ m => simp [genSplit, Index_nil_of_ne_nil sep hsep]
  | succ n ih =>
    cases m with
    | zero =>
      have hs : s = [] := List.length_eq_zero.mp (Nat.le_zero.mp hm)
      subst hs
      simp [genSplit, Index_nil_of_ne_nil sep hsep]
    | succ m =>
      unfold genSplit
      cases hi : Index s sep with
      | none => rfl
      | some k =>
        have hpos : 0 < sep.length := List.length_pos.mpr hsep
        have hlen : (s.drop (k + sep.length)).length ≤ s.length - 1 := by
          rw [List.length_drop]
          omega
        simp only
        rw [ih m (s.drop (k + sep.length)) (by omega) (by omega)]

theorem Index_single_none (c : Char) (s : GoString) (h : Index s [c] = none) :
    s.takeWhile (fun r => r != c) = s := by
  induction s with
  | nil => rfl
  | cons x xs ih =>
    by_cases hx : c = x
    · subst hx
      simp [Index, List.isPrefixOf] at h
    · have hx2 : x ≠ c := fun e => hx e.symm
      simp [Index, List.isPrefixOf, hx] at h
      have hne : (x != c) = true := by simp [hx2]
      rw [List.takeWhile_cons, hne, ih h]
      rfl

theorem Index_single_some (c : Char) (s : GoString) (m : Nat) (h : Index s [c] = some m) :
    s.take m = s.takeWhile (fun r => r != c) := by
  induction s generalizing m with
  | nil => simp
  | cons x xs ih =>
    by_cases hx : c = x
    · subst hx
      simp [Index, List.isPrefixOf] at h
      subst h
      simp [List.takeWhile]
    · have hx2 : x ≠ c := fun e => hx e.symm
      simp [Index, List.isPrefixOf, hx] at h
      obtain ⟨k, hk, rfl⟩ := h
      have hne : (x != c) = true := by simp [hx2]
      rw [List.takeWhile_cons, hne, List.take_succ_cons, ih k hk]
      rfl

theorem genSplit_single_head (c : Char) (n : Nat) (s : GoString) :
    (genSplit (n + 1) s [c])[0]? = some (s.takeWhile (fun r => r != c)) := by
  unfold genSplit
  cases h : Index s [c] with
  | none => simp [Index_single_none c s h]
  | some m => simp [Index_single_some c s m h]

/-- The first piece of a split at a one-rune separator is the text before the
first occurrence of that rune. -/
theorem Split_single_head (c : Char) (s : GoString) :
    (Split s [c])[0]? = some (s.takeWhile (fun r => r != c)) := by
  unfold Split
  cases s with
  | nil => simp [genSplit]
  | cons x xs =>
    simp only [List.length_cons]
    rw [if_neg (by simp)]
    exact genSplit_single_head c xs.length (x :: xs)

/-- The header loop never fails and applies `redactRule` to each line. -/
theorem redactHeaders_eq_map (lines : List GoString) :
    redactHeaders lines = some (lines.map redactRule) := by
  induction lines with
  | nil => rfl
  | cons header rest ih =>
    have hsplit : (Split header ":".toList)[0]? = some (firstSegment header) :=
      Split_single_head ':' header
    unfold redactHeaders
    simp only [hsplit, ih, Option.map_some', List.map_cons]
    unfold redactRule
    by_cases h : firstSegment header = "Authorization".toList
    · rw [if_pos h, if_pos h, h]
      rfl
    · rw [if_neg h, if_neg h]

set_option maxRecDepth 100000

/-! ## the stages of the deferred function -/

theorem Error_ok_Stack (g : NormalizedError) (m : GoString) (h : g.Error = .ok m) :
    ∃ st, g.Stack = .ok st := by
  cases g with
  | nilPointer => simp [NormalizedError.Error] at h
  | mk e st p => exact ⟨st, rfl⟩

theorem logStage_broken (rt : Runtime) (l : Logger) (c : Context) (err : RawFailure)
    (g : NormalizedError) :
    logStage rt (some l) c err g true = .ok [l.Printf rt (brokenMessage c.Request err)] := by
  simp [logStage, redactHeaders_eq_map]

theorem logStage_normal (rt : Runtime) (l : Logger) (c : Context) (err : RawFailure)
    (g : NormalizedError) (m st : GoString) (hm : g.Error = .ok m) (hst : g.Stack = .ok st) :
    logStage rt (some l) c err g false
      = .ok [l.Printf rt (recoveredMessage c.Request m st)] := by
  simp [logStage, redactHeaders_eq_map, hm, hst]

theorem logStage_normal_panic (rt : Runtime) (l : Logger) (c : Context) (err : RawFailure)
    (g : NormalizedError) (t : GoString) (hm : g.Error = .error t) :
    logStage rt (some l) c err g false = .error (runtimePanic t) := by
  simp [logStage, redactHeaders_eq_map, hm]

/-- The log stage returns on the broken path, and on the normal path when there
is no logger or the message of the normalized error can be had; without a
logger it prints nothing. -/
theorem logStage_ok (rt : Runtime) (logger : Option Logger) (c : Context) (err : RawFailure)
    (g : NormalizedError) (b : Bool)
    (h : b = true ∨ logger = none ∨ ∃ m, g.Error = .ok m) :
    ∃ lg, logStage rt logger c err g b = .ok lg ∧ (logger = none → lg = []) := by
  cases logger with
  | none => exact ⟨[], rfl, fun _ => rfl⟩
  | some l =>
    cases b with
    | true => exact ⟨_, logStage_broken rt l c err g, fun hl => by cases hl⟩
    | false =>
      rcases h with h | h | ⟨m, hm⟩
      · cases h
      · cases h
      · obtain ⟨st, hst⟩ := Error_ok_Stack g m hm
        exact ⟨_, logStage_normal rt l c err g m st hm hst, fun hl => by cases hl⟩

theorem brokenPipe_true_shape (rt : Runtime) (err : RawFailure)
    (h : brokenPipe rt err = .ok true) :
    ∃ op net src addr sc inner msg,
      err = .error (.opError op net src addr (.val (.syscallError sc inner))) ∧
      (GoError.syscallError sc inner).Error = .ok msg ∧
      (Contains (ToLower rt msg) "broken pipe".toList
        || Contains (ToLower rt msg) "connection reset by peer".toList) = true := by
  unfold brokenPipe at h
  cases err with
  | str s => simp [RawFailure.asOpError] at h
  | other v s => simp [RawFailure.asOpError] at h
  | error e =>
    cases e with
    | opError op net src addr fld =>
      cases fld with
      | nil => simp [RawFailure.asOpError, GoError.Err, ErrField.asSyscallError] at h
      | val e2 =>
        cases e2 with
        | syscallError sc inner =>
          simp only [RawFailure.asOpError, GoError.Err, ErrField.asSyscallError] at h
          cases hm : (GoError.syscallError sc inner).Error with
          | error t => simp [hm] at h
          | ok msg =>
            simp only [hm, Except.ok.injEq] at h
            exact ⟨op, net, src, addr, sc, inner, msg, rfl, hm, h⟩
        | nilSyscallError =>
          simp [RawFailure.asOpError, GoError.Err, ErrField.asSyscallError, GoError.Error] at h
        | _ => simp [RawFailure.asOpError, GoError.Err, ErrField.asSyscallError] at h
    | nilOpError => simp [RawFailure.asOpError, GoError.Err] at h
    | _ => simp [RawFailure.asOpError] at h

theorem brokenPipe_asError (rt : Runtime) (err : RawFailure) (h : brokenPipe rt err = .ok true) :
    ∃ e, err = .error e ∧ err.asError = some e := by
  obtain ⟨op, net, src, addr, sc, inner, msg, rfl, _, _⟩ := brokenPipe_true_shape rt err h
  exact ⟨_, rfl, rfl⟩

/-- The classification panics exactly on a nil `*net.OpError` and on a
`*net.OpError` whose `Err` is a `*os.SyscallError` whose `Error()` panics. -/
theorem brokenPipe_panics_iff (rt : Runtime) (err : RawFailure) :
    (∃ p, brokenPipe rt err = .error p) ↔
      err = .error .nilOpError ∨
      ∃ op net src addr se t, err = .error (.opError op net src addr (.val se)) ∧
        (ErrField.val se).asSyscallError = some se ∧ se.Error = .error t := by
  constructor
  · rintro ⟨p, h⟩
    unfold brokenPipe at h
    cases err with
    | str s => simp [RawFailure.asOpError] at h
    | other v s => simp [RawFailure.asOpError] at h
    | error e =>
      cases e with
      | opError op net src addr fld =>
        right
        cases fld with
        | nil => simp [RawFailure.asOpError, GoError.Err, ErrField.asSyscallError] at h
        | val e2 =>
          cases e2 with
          | syscallError sc inner =>
            simp only [RawFailure.asOpError, GoError.Err, ErrField.asSyscallError] at h
            cases hm : (GoError.syscallError sc inner).Error with
            | error t => exact ⟨op, net, src, addr, _, t, rfl, rfl, hm⟩
            | ok msg => simp [hm] at h
          | nilSyscallError => exact ⟨op, net, src, addr, _, nilDereference, rfl, rfl, rfl⟩
          | _ => simp [RawFailure.asOpError, GoError.Err, ErrField.asSyscallError] at h
      | nilOpError => exact Or.inl rfl
      | _ => simp [RawFailure.asOpError] at h
  · rintro (rfl | ⟨op, net, src, addr, se, t, rfl, hse, ht⟩)
    · exact ⟨_, rfl⟩
    · refine ⟨runtimePanic t, ?_⟩
      simp only [brokenPipe, RawFailure.asOpError, GoError.Err, hse, ht]

theorem Written_false_iff (c : Context) : c.Written = false ↔ c.size = -1 := by
  simp [Context.Written]

theorem Status_written (c : Context) (code : Nat) (hw : c.Written = true) :
    (c.Status code) = c := by
  unfold Context.Status
  split
  · simp [hw]
  · rfl

theorem Status_Request (c : Context) (code : Nat) : (c.Status code).Request = c.Request := by
  unfold Context.Status
  split
  · split <;> rfl
  · rfl

theorem WriteHeaderNow_Request (c : Context) : c.WriteHeaderNow.Request = c.Request := by
  unfold Context.WriteHeaderNow
  split <;> rfl

theorem IsAborted_AbortWithStatus (c : Context) (code : Nat) :
    (c.AbortWithStatus code).IsAborted = true := rfl

theorem Request_AbortWithStatus (c : Context) (code : Nat) :
    (c.AbortWithStatus code).Request = c.Request := by
  show ((c.Status code).WriteHeaderNow).Request = c.Request
  rw [WriteHeaderNow_Request, Status_Request]

/-- When `c.Error(e)` returns, it has appended one `*gin.Error` and left the
rest of the context alone. -/
theorem Context_Error_ok (c : Context) (e : GoError) (found : Option GoError)
    (h : e.asGinError = .ok found) :
    c.Error e = .ok { c with Errors := c.Errors
      ++ [found.getD (.ginError (.val e) ErrorTypePrivate)] } := by
  unfold Context.Error
  cases found with
  | none => simp [h]
  | some g => simp [h]

theorem Context_Error_panic (c : Context) (e : GoError) (t : GoString)
    (h : e.asGinError = .error t) : c.Error e = .error (runtimePanic t) := by
  unfold Context.Error
  simp [h]

/-- The message of the normalized error of a string is the string. -/
theorem Wrap_str_Error (rt : Runtime) (s : GoString) : (Wrap rt (.str s)).Error = .ok s := by
  simp [Wrap, NormalizedError.Error, ErrField.Error, GoError.Error]

theorem run_failure (rt : Runtime) (f : Hook) (out : Option Writer) (next : Handler)
    (c c1 : Context) (err : RawFailure) (hnext : next c = (c1, some err)) :
    RecoveryWithWriter rt f out next c =
      recovered rt f (out.map (fun w => New w "\n\n\x1b[31m".toList)) c1 err := by
  unfold RecoveryWithWriter
  simp only [hnext]

theorem recovered_classify_panic (rt : Runtime) (f : Hook) (logger : Option Logger)
    (c : Context) (err : RawFailure) (p : RawFailure) (h : brokenPipe rt err = .error p) :
    recovered rt f logger c err = { ctx := c, logged := [], hookCalls := [], panic := some p } := by
  unfold recovered
  simp only [h]

theorem recovered_log_panic (rt : Runtime) (f : Hook) (l : Logger) (c : Context)
    (err : RawFailure) (t : GoString) (h : brokenPipe rt err = .ok false)
    (ht : (Wrap rt err).Error = .error t) :
    recovered rt f (some l) c err
      = { ctx := c, logged := [], hookCalls := [], panic := some (runtimePanic t) } := by
  unfold recovered
  simp only [h, logStage_normal_panic rt l c err (Wrap rt err) t ht]

theorem recovered_normal (rt : Runtime) (f : Hook) (logger : Option Logger) (c : Context)
    (err : RawFailure) (lg : List GoString) (h : brokenPipe rt err = .ok false)
    (hlog : logStage rt logger c err (Wrap rt err) false = .ok lg) :
    recovered rt f logger c err =
      { ctx := (f (c.AbortWithStatus StatusInternalServerError) (Wrap rt err)).1
        logged := lg
        hookCalls := [(c.AbortWithStatus StatusInternalServerError, Wrap rt err)]
        panic := (f (c.AbortWithStatus StatusInternalServerError) (Wrap rt err)).2 } := by
  unfold recovered
  simp [h, hlog, respondStage]

theorem recovered_broken (rt : Runtime) (f : Hook) (logger : Option Logger) (c : Context)
    (e : GoError) (found : Option GoError) (lg : List GoString)
    (h : brokenPipe rt (.error e) = .ok true)
    (hlog : logStage rt logger c (.error e) (Wrap rt (.error e)) true = .ok lg)
    (hwalk : e.asGinError = .ok found) :
    recovered rt f logger c (.error e) =
      { ctx := (f ({ c with Errors := c.Errors
            ++ [found.getD (.ginError (.val e) ErrorTypePrivate)] } : Context).Abort
          (Wrap rt (.error e))).1
        logged := lg
        hookCalls := [(({ c with Errors := c.Errors
            ++ [found.getD (.ginError (.val e) ErrorTypePrivate)] } : Context).Abort,
          Wrap rt (.error e))]
        panic := (f ({ c with Errors := c.Errors
            ++ [found.getD (.ginError (.val e) ErrorTypePrivate)] } : Context).Abort
          (Wrap rt (.error e))).2 } := by
  unfold recovered
  simp [h, hlog, respondStage, RawFailure.asError, Context_Error_ok c e found hwalk]

theorem recovered_broken_panic (rt : Runtime) (f : Hook) (logger : Option Logger) (c : Context)
    (e : GoError) (t : GoString) (lg : List GoString)
    (h : brokenPipe rt (.error e) = .ok true)
    (hlog : logStage rt logger c (.error e) (Wrap rt (.error e)) true = .ok lg)
    (hwalk : e.asGinError = .error t) :
    recovered rt f logger c (.error e) =
      { ctx := c, logged := lg, hookCalls := [], panic := some (runtimePanic t) } := by
  unfold recovered
  simp [h, hlog, respondStage, RawFailure.asError, Context_Error_panic c e t hwalk]

/-- When the steps before the hook return, the call is: those steps, then one
invocation of the hook on the context they produced. -/
theorem run_reaches_hook (rt : Runtime) (f : Hook) (out : Option Writer) (next : Handler)
    (c c1 : Context) (err : RawFailure) (hnext : next c = (c1, some err))
    (hsteps : stepsReturn rt out err) :
    ∃ c2 lg,
      RecoveryWithWriter rt f out next c =
        { ctx := (f c2 (Wrap rt err)).1, logged := lg, hookCalls := [(c2, Wrap rt err)],
          panic := (f c2 (Wrap rt err)).2 } ∧
      (out = none → lg = []) ∧
      (brokenPipe rt err = .ok false → c2 = c1.AbortWithStatus StatusInternalServerError) ∧
      (brokenPipe rt err = .ok true → ∃ e found, err = .error e ∧ e.asGinError = .ok found ∧
        c2 = ({ c1 with Errors := c1.Errors
          ++ [found.getD (.ginError (.val e) ErrorTypePrivate)] } : Context).Abort) := by
  rw [run_failure rt f out next c c1 err hnext]
  rcases hsteps with ⟨hb, hlog⟩ | ⟨hb, e, found, rfl, hwalk⟩
  · obtain ⟨lg, hlg, hnone⟩ := logStage_ok rt (out.map (fun w => New w "\n\n\x1b[31m".toList))
      c1 err (Wrap rt err) false (by
        rcases hlog with h | h
        · exact Or.inr (Or.inl (by simp [h]))
        · exact Or.inr (Or.inr h))
    refine ⟨_, lg, recovered_normal rt f _ c1 err lg hb hlg, ?_, fun _ => rfl, ?_⟩
    · intro ho
      exact hnone (by simp [ho])
    · intro hb2
      rw [hb] at hb2
      cases hb2
  · obtain ⟨lg, hlg, hnone⟩ := logStage_ok rt (out.map (fun w => New w "\n\n\x1b[31m".toList))
      c1 (.error e) (Wrap rt (.error e)) true (Or.inl rfl)
    refine ⟨_, lg, recovered_broken rt f _ c1 e found lg hb hlg hwalk, ?_, ?_, ?_⟩
    · intro ho
      exact hnone (by simp [ho])
    · intro hb2
      rw [hb] at hb2
      cases hb2
    · intro _
      exact ⟨e, found, rfl, hwalk, rfl⟩

/-- When one of the steps before the hook panics, the hook is not invoked and
the panic leaves the call. -/
theorem run_stops_before_hook (rt : Runtime) (f : Hook) (out : Option Writer) (next : Handler)
    (c c1 : Context) (err : RawFailure) (hnext : next c = (c1, some err))
    (hsteps : ¬ stepsReturn rt out err) :
    (RecoveryWithWriter rt f out next c).hookCalls = [] ∧
    (RecoveryWithWriter rt f out next c).ctx = c1 ∧
    ∃ p, (RecoveryWithWriter rt f out next c).panic = some p := by
  rw [run_failure rt f out next c c1 err hnext]
  cases hb : brokenPipe rt err with
  | error p =>
    rw [recovered_classify_panic rt f _ c1 err p hb]
    exact ⟨rfl, rfl, p, rfl⟩
  | ok b =>
    cases b with
    | false =>
      cases out with
      | none => exact absurd (Or.inl ⟨hb, Or.inl rfl⟩) hsteps
      | some w =>
        cases hm : (Wrap rt err).Error with
        | ok m => exact absurd (Or.inl ⟨hb, Or.inr ⟨m, hm⟩⟩) hsteps
        | error t =>
          simp only [Option.map_some']
          rw [recovered_log_panic rt f _ c1 err t hb hm]
          exact ⟨rfl, rfl, _, rfl⟩
    | true =>
      obtain ⟨e, rfl, _⟩ := brokenPipe_asError rt err hb
      cases hw : e.asGinError with
      | ok found => exact absurd (Or.inr ⟨hb, e, found, rfl, hw⟩) hsteps
      | error t =>
        obtain ⟨lg, hlg, _⟩ := logStage_ok rt (out.map (fun w => New w "\n\n\x1b[31m".toList))
          c1 (.error e) (Wrap rt (.error e)) true (Or.inl rfl)
        rw [recovered_broken_panic rt f _ c1 e t lg hb hlg hw]
        exact ⟨rfl, rfl, _, rfl⟩

mutual
/-- The `Error()` of a sound error returns. -/
theorem sound_GoError_Error : ∀ e : GoError, e.sound = true → ∃ m, e.Error = .ok m
  | .plain msg, _ => ⟨msg, rfl⟩
  | .faulty _, h => by simp [GoError.sound] at h
  | .nilSyscallError, h => by simp [GoError.sound] at h
  | .syscallError sc e, h => by
    obtain ⟨m, hm⟩ := sound_ErrField_Error e (by simpa [GoError.sound] using h)
    simp only [GoError.Error, hm]
    exact ⟨_, rfl⟩
  | .nilOpError, h => by simp [GoError.sound] at h
  | .opError op net src addr e, h => by
    obtain ⟨m, hm⟩ := sound_ErrField_Error e (by simpa [GoError.sound] using h)
    simp only [GoError.Error, hm]
    exact ⟨_, rfl⟩
  | .nilWrapped, h => by simp [GoError.sound] at h
  | .wrapped e st p, h => by
    obtain ⟨m, hm⟩ := sound_ErrField_Error e (by simpa [GoError.sound] using h)
    simp only [GoError.Error, hm]
    exact ⟨_, rfl⟩
  | .nilGinError, h => by simp [GoError.sound] at h
  | .ginError e t, h => by
    obtain ⟨m, hm⟩ := sound_ErrField_Error e (by simpa [GoError.sound] using h)
    simp only [GoError.Error, hm]
    exact ⟨_, rfl⟩

theorem sound_ErrField_Error : ∀ e : ErrField, e.sound = true → ∃ m, e.Error = .ok m
  | .nil, h => by simp [ErrField.sound] at h
  | .val e, h => by
    obtain ⟨m, hm⟩ := sound_GoError_Error e (by simpa [ErrField.sound] using h)
    simp only [ErrField.Error, hm]
    exact ⟨_, rfl⟩
end

mutual
/-- The walk of `errors.As` over a sound error returns. -/
theorem sound_GoError_asGinError :
    ∀ e : GoError, e.sound = true → ∃ found, e.asGinError = .ok found
  | .plain _, _ => ⟨none, rfl⟩
  | .faulty _, h => by simp [GoError.sound] at h
  | .nilSyscallError, h => by simp [GoError.sound] at h
  | .syscallError sc e, h => by
    obtain ⟨m, hm⟩ := sound_ErrField_asGinError e (by simpa [GoError.sound] using h)
    simp only [GoError.asGinError, hm]
    exact ⟨_, rfl⟩
  | .nilOpError, h => by simp [GoError.sound] at h
  | .opError op net src addr e, h => by
    obtain ⟨m, hm⟩ := sound_ErrField_asGinError e (by simpa [GoError.sound] using h)
    simp only [GoError.asGinError, hm]
    exact ⟨_, rfl⟩
  | .nilWrapped, h => by simp [GoError.sound] at h
  | .wrapped e st p, h => by
    obtain ⟨m, hm⟩ := sound_ErrField_asGinError e (by simpa [GoError.sound] using h)
    simp only [GoError.asGinError, hm]
    exact ⟨_, rfl⟩
  | .nilGinError, h => by simp [GoError.sound] at h
  | .ginError e t, _ => ⟨_, rfl⟩

theorem sound_ErrField_asGinError :
    ∀ e : ErrField, e.sound = true → ∃ found, e.asGinError = .ok found
  | .nil, h => by simp [ErrField.sound] at h
  | .val e, h => by
    obtain ⟨m, hm⟩ := sound_GoError_asGinError e (by simpa [ErrField.sound] using h)
    simp only [ErrField.asGinError, hm]
    exact ⟨_, rfl⟩
end

/-- The message of the normalized error of a sound value can be had. -/
theorem sound_Wrap_Error (rt : Runtime) (err : RawFailure) (h : err.sound = true) :
    ∃ m, (Wrap rt err).Error = .ok m := by
  cases err with
  | str s => exact ⟨s, Wrap_str_Error rt s⟩
  | other v s => exact ⟨v, by simp [Wrap, NormalizedError.Error, ErrField.Error, GoError.Error]⟩
  | error e =>
    have he : e.sound = true := h
    obtain ⟨m, hm⟩ := sound_GoError_Error e he
    cases e with
    | wrapped e2 st p =>
      simp only [GoError.Error] at hm
      cases h2 : e2.Error with
      | error t => simp [h2] at hm
      | ok m2 =>
        simp only [Wrap, NormalizedError.Error, h2]
        exact ⟨_, rfl⟩
    | nilWrapped => simp [GoError.sound] at he
    | plain _ =>
      simp only [Wrap, NormalizedError.Error, ErrField.Error, hm]
      exact ⟨_, rfl⟩
    | faulty _ => simp [GoError.sound] at he
    | nilSyscallError => simp [GoError.sound] at he
    | syscallError _ _ =>
      simp only [Wrap, NormalizedError.Error, ErrField.Error, hm]
      exact ⟨_, rfl⟩
    | nilOpError => simp [GoError.sound] at he
    | opError _ _ _ _ _ =>
      simp only [Wrap, NormalizedError.Error, ErrField.Error, hm]
      exact ⟨_, rfl⟩
    | nilGinError => simp [GoError.sound] at he
    | ginError _ _ =>
      simp only [Wrap, NormalizedError.Error, ErrField.Error, hm]
      exact ⟨_, rfl⟩

/-- For a sound recovered value the classification completes. -/
theorem sound_brokenPipe (rt : Runtime) (err : RawFailure) (h : err.sound = true) :
    ∃ b, brokenPipe rt err = .ok b := by
  cases hb : brokenPipe rt err with
  | ok b => exact ⟨b, rfl⟩
  | error p =>
    rcases (brokenPipe_panics_iff rt err).mp ⟨p, hb⟩ with rfl | ⟨op, net, src, addr, se, t, rfl, _, ht⟩
    · simp [RawFailure.sound, GoError.sound] at h
    · have hs : se.sound = true := by
        simpa [RawFailure.sound, GoError.sound, ErrField.sound] using h
      obtain ⟨m, hm⟩ := sound_GoError_Error se hs
      rw [hm] at ht
      cases ht

/-- For a sound recovered value (no nil pointer, no nil `Err`, no panicking
`Error()` on its chain) the steps of the deferred function before the hook
return, with or without a sink. -/
theorem stepsReturn_of_sound (rt : Runtime) (out : Option Writer) (err : RawFailure)
    (h : err.sound = true) : stepsReturn rt out err := by
  obtain ⟨b, hb⟩ := sound_brokenPipe rt err h
  cases b with
  | false => exact Or.inl ⟨hb, Or.inr (sound_Wrap_Error rt err h)⟩
  | true =>
    obtain ⟨e, rfl, _⟩ := brokenPipe_asError rt err hb
    obtain ⟨found, hf⟩ := sound_GoError_asGinError e h
    exact Or.inr ⟨hb, e, found, rfl, hf⟩

/-- Every entry the log stage prints holds the request dump as it was taken. -/
theorem logStage_keeps_request (rt : Runtime) (l : Logger) (c : Context) (err : RawFailure)
    (g : NormalizedError) (b : Bool) (lg : List GoString)
    (h : logStage rt (some l) c err g b = .ok lg) : ∀ e ∈ lg, c.Request <:+: e := by
  intro e he
  cases b with
  | true =>
    rw [logStage_broken] at h
    cases h
    simp only [List.mem_singleton] at he
    subst he
    unfold Logger.Printf Logger.Output Logger.entry brokenMessage
    simp only [List.append_assoc]
    exact (List.prefix_append _ _).isInfix.trans
      ((List.suffix_append _ _).trans ((List.suffix_append _ _).trans
        ((List.suffix_append _ _).trans (List.suffix_append _ _)))).isInfix
  | false =>
    cases hm : g.Error with
    | error t =>
      rw [logStage_normal_panic rt l c err g t hm] at h
      cases h
    | ok m =>
      obtain ⟨st, hst⟩ := Error_ok_Stack g m hm
      rw [logStage_normal rt l c err g m st hm hst] at h
      cases h
      simp only [List.mem_singleton] at he
      subst he
      unfold Logger.Printf Logger.Output Logger.entry recoveredMessage
      simp only [List.append_assoc]
      exact (List.prefix_append _ _).isInfix.trans
        ((List.suffix_append _ _).trans ((List.suffix_append _ _).trans
          (List.suffix_append _ _))).isInfix

/-! ## the claims -/

/-- C2: for a dumped request with the header line `Authorization: Bearer xyz`
and a log sink, the one entry written on the normal path and the one written
on the broken path both hold `xyz` and do not hold `Authorization: *`: the
entry prints the dump as it was taken, not the lines the header loop rewrote. -/
theorem C2_logged_entry_keeps_header_value :
    (RecoveryWithWriter sampleRuntime sampleHook (some sampleWriter) boomHandler
        sampleContext).logged.map
      (fun e => (Contains e "Authorization: *".toList, Contains e "xyz".toList))
      = [(false, true)] ∧
    (RecoveryWithWriter sampleRuntime sampleHook (some sampleWriter) brokenHandler
        sampleContext).logged.map
      (fun e => (Contains e "Authorization: *".toList, Contains e "xyz".toList))
      = [(false, true)] := by
  decide

/-- C4, as stated, fails.  The hook is not invoked for a nil `*net.OpError`
(the deferred function panics at line 36), for a nil `*os.SyscallError` when a
sink is set (line 56), and for a broken pipe error whose chain holds a nil
`*net.OpError` (line 62).  For a broken pipe error whose chain holds a
`*gin.Error`, that error is recorded, not the recovered one. -/
theorem C4_hook_not_invoked :
    (RecoveryWithWriter sampleRuntime sampleHook none (errorHandler .nilOpError)
        sampleContext).hookCalls = [] ∧
    (RecoveryWithWriter sampleRuntime sampleHook (some sampleWriter)
        (errorHandler .nilSyscallError) sampleContext).hookCalls = [] ∧
    brokenPipe sampleRuntime (.error nilInChainError) = .ok true ∧
    (RecoveryWithWriter sampleRuntime sampleHook none (errorHandler nilInChainError)
        sampleContext).hookCalls = [] ∧
    brokenPipe sampleRuntime (.error ginChainError) = .ok true ∧
    (RecoveryWithWriter sampleRuntime sampleHook none (errorHandler ginChainError)
        sampleContext).ctx.Errors = [.ginError (.val (.plain "broken pipe".toList)) 2] := by
  decide

/-- C4, amended: when the handler chain panics and the steps of the deferred
function before the hook return, the hook is invoked exactly once, with the
context of the request and with `Wrap` of the recovered value, whose message
for a string is the string; the context after the call is the one the hook
leaves.  On the broken path one error has been appended to the errors of the
context before: the first `*gin.Error` on the chain of the recovered error, or
else a private `*gin.Error` around the recovered error. -/
theorem C4_hook_invoked_once (rt : Runtime) (f : Hook) (out : Option Writer)
    (next : Handler) (c c1 : Context) (err : RawFailure)
    (hnext : next c = (c1, some err)) (hsteps : stepsReturn rt out err) :
    ∃ c2,
      (RecoveryWithWriter rt f out next c).hookCalls = [(c2, Wrap rt err)] ∧
      (RecoveryWithWriter rt f out next c).ctx = (f c2 (Wrap rt err)).1 ∧
      c2.Request = c1.Request ∧
      (∀ s, err = .str s → (Wrap rt err).Error = .ok s) ∧
      (brokenPipe rt err = .ok true →
        ∃ e, err = .error e ∧
          (e.asGinError = .ok none →
            c2.Errors = c1.Errors ++ [.ginError (.val e) ErrorTypePrivate]) ∧
          (∀ g, e.asGinError = .ok (some g) → c2.Errors = c1.Errors ++ [g])) := by
  obtain ⟨c2, lg, hrun, _, hn, hb⟩ := run_reaches_hook rt f out next c c1 err hnext hsteps
  refine ⟨c2, by rw [hrun], by rw [hrun], ?_, ?_, ?_⟩
  · rcases hsteps with ⟨h, _⟩ | ⟨h, _⟩
    · rw [hn h]
      exact Request_AbortWithStatus c1 _
    · obtain ⟨e, found, _, _, hc2⟩ := hb h
      rw [hc2]
      rfl
  · rintro s rfl
    exact Wrap_str_Error rt s
  · intro h
    obtain ⟨e, found, he, hw, hc2⟩ := hb h
    refine ⟨e, he, ?_, ?_⟩
    · intro h0
      rw [hw] at h0
      cases h0
      rw [hc2]
      rfl
    · intro g hg
      rw [hw] at hg
      cases hg
      rw [hc2]
      rfl

/-- C4 amended, at the handler that panics with `boom`. -/
theorem C4_hook_invoked_once_witness :
    boomHandler sampleContext = ({ sampleContext with index := 0 }, some (.str "boom".toList)) ∧
    stepsReturn sampleRuntime none (.str "boom".toList) ∧
    (Wrap sampleRuntime (.str "boom".toList)).Error = .ok "boom".toList ∧
    ∃ c2, (RecoveryWithWriter sampleRuntime sampleHook none boomHandler sampleContext).hookCalls
      = [(c2, Wrap sampleRuntime (.str "boom".toList))] :=
  have hs : stepsReturn sampleRuntime none (.str "boom".toList) := Or.inl ⟨rfl, Or.inl rfl⟩
  have h := C4_hook_invoked_once sampleRuntime sampleHook none boomHandler sampleContext
    { sampleContext with index := 0 } (.str "boom".toList) rfl hs
  ⟨rfl, hs, h.choose_spec.2.2.2.1 _ rfl, h.choose, h.choose_spec.1⟩

/-- C5, as stated, fails: for a `*net.OpError` wrapping a `*os.SyscallError`
with the message `write: broken pipe` the flag is set and the hook is invoked. -/
theorem C5_hook_invoked_on_broken_path :
    brokenPipe sampleRuntime (.error brokenPipeError) = .ok true ∧
    (RecoveryWithWriter sampleRuntime sampleHook (some sampleWriter) brokenHandler
        sampleContext).hookCalls
      = [(({ sampleContext with
              index := 0
              Errors := [.ginError (.val brokenPipeError) ErrorTypePrivate] } : Context).Abort,
          Wrap sampleRuntime (.error brokenPipeError))] := by
  decide

/-- C5, amended: when the handler chain panics, the hook is invoked once on the
normal path and once on the broken path, in each case when the step before it
returns: `goErr.Error()` for the log entry on the normal path with a sink, the
walk of `errors.As` inside `c.Error` on the broken path. -/
theorem C5_hook_invoked_on_both_paths (rt : Runtime) (f : Hook) (out : Option Writer)
    (next : Handler) (c c1 : Context) (err : RawFailure)
    (hnext : next c = (c1, some err)) :
    (brokenPipe rt err = .ok false → (out = none ∨ ∃ m, (Wrap rt err).Error = .ok m) →
      (RecoveryWithWriter rt f out next c).hookCalls.length = 1) ∧
    (brokenPipe rt err = .ok true → (∃ e found, err = .error e ∧ e.asGinError = .ok found) →
      (RecoveryWithWriter rt f out next c).hookCalls.length = 1) := by
  constructor
  · intro hb hlog
    obtain ⟨c2, lg, hrun, _⟩ :=
      run_reaches_hook rt f out next c c1 err hnext (Or.inl ⟨hb, hlog⟩)
    rw [hrun]
    rfl
  · intro hb hwalk
    obtain ⟨c2, lg, hrun, _⟩ :=
      run_reaches_hook rt f out next c c1 err hnext (Or.inr ⟨hb, hwalk⟩)
    rw [hrun]
    rfl

/-- C5 amended, at the handler that panics with a broken pipe error. -/
theorem C5_hook_invoked_on_both_paths_witness :
    brokenHandler sampleContext
      = ({ sampleContext with index := 0 }, some (.error brokenPipeError)) ∧
    brokenPipe sampleRuntime (.error brokenPipeError) = .ok true ∧
    (∃ e found, RawFailure.error brokenPipeError = .error e ∧ e.asGinError = .ok found) ∧
    (RecoveryWithWriter sampleRuntime sampleHook none brokenHandler
        sampleContext).hookCalls.length = 1 :=
  have hw : ∃ e found, RawFailure.error brokenPipeError = .error e ∧ e.asGinError = .ok found :=
    ⟨brokenPipeError, none, rfl, rfl⟩
  ⟨rfl, by decide, hw,
    (C5_hook_invoked_on_both_paths sampleRuntime sampleHook none brokenHandler sampleContext
      { sampleContext with index := 0 } (.error brokenPipeError) rfl).2 (by decide) hw⟩

/-- C6, as stated, fails: on the broken path a hook that answers with status
500 and a body leaves status 500 and four bytes written where the handler
chain had left status 200 and nothing written; and for a broken pipe error
whose chain holds a `*gin.Error`, that error is recorded, not the recovered
one. -/
theorem C6_status_changed_on_broken_path :
    brokenPipe sampleRuntime (.error brokenPipeError) = .ok true ∧
    (brokenHandler sampleContext).1.status = 200 ∧
    (RecoveryWithWriter sampleRuntime renderHook (some sampleWriter) brokenHandler
        sampleContext).ctx.status = 500 ∧
    (RecoveryWithWriter sampleRuntime renderHook (some sampleWriter) brokenHandler
        sampleContext).ctx.size = 4 ∧
    brokenPipe sampleRuntime (.error ginChainError) = .ok true ∧
    (RecoveryWithWriter sampleRuntime sampleHook (some sampleWriter)
        (errorHandler ginChainError) sampleContext).ctx.Errors
      = [.ginError (.val (.plain "broken pipe".toList)) 2] := by
  decide

/-- C6, amended: when the handler chain panics with a value classified broken
and the walk of `errors.As` inside `c.Error` returns, the middleware itself
appends exactly one error to the errors of the context (the first `*gin.Error`
on the chain of the recovered error, or else a private `*gin.Error` around the
recovered error) and sets no status and writes nothing: the context handed to
the hook has the status and the size the handler chain left.  After the
middleware the context is the one the hook leaves, with the same status when
the hook leaves the status alone. -/
theorem C6_broken_records_error_only (rt : Runtime) (f : Hook) (out : Option Writer)
    (next : Handler) (c c1 : Context) (err : RawFailure)
    (hnext : next c = (c1, some err)) (hbroken : brokenPipe rt err = .ok true)
    (hwalk : ∃ e found, err = .error e ∧ e.asGinError = .ok found) :
    ∃ e c2, err = .error e ∧
      (RecoveryWithWriter rt f out next c).hookCalls = [(c2, Wrap rt err)] ∧
      ((e.asGinError = .ok none ∧
          c2.Errors = c1.Errors ++ [.ginError (.val e) ErrorTypePrivate]) ∨
        ∃ g, e.asGinError = .ok (some g) ∧ c2.Errors = c1.Errors ++ [g]) ∧
      c2.status = c1.status ∧ c2.size = c1.size ∧
      (RecoveryWithWriter rt f out next c).ctx = (f c2 (Wrap rt err)).1 ∧
      ((f c2 (Wrap rt err)).1.status = c2.status →
        (RecoveryWithWriter rt f out next c).ctx.status = c1.status) := by
  obtain ⟨c2, lg, hrun, _, _, hb⟩ :=
    run_reaches_hook rt f out next c c1 err hnext (Or.inr ⟨hbroken, hwalk⟩)
  obtain ⟨e, found, he, hw, hc2⟩ := hb hbroken
  have hst : c2.status = c1.status := by rw [hc2]; rfl
  refine ⟨e, c2, he, by rw [hrun], ?_, hst, by rw [hc2]; rfl, by rw [hrun], ?_⟩
  · cases found with
    | none => exact Or.inl ⟨hw, by rw [hc2]; rfl⟩
    | some g => exact Or.inr ⟨g, hw, by rw [hc2]; rfl⟩
  · intro hk
    rw [hrun]
    exact hk.trans hst

/-- C6 amended, at the handler that panics with a broken pipe error. -/
theorem C6_broken_records_error_only_witness :
    brokenHandler sampleContext
      = ({ sampleContext with index := 0 }, some (.error brokenPipeError)) ∧
    brokenPipe sampleRuntime (.error brokenPipeError) = .ok true ∧
    ∃ e c2, RawFailure.error brokenPipeError = .error e ∧
      (RecoveryWithWriter sampleRuntime sampleHook (some sampleWriter) brokenHandler
        sampleContext).hookCalls = [(c2, Wrap sampleRuntime (.error brokenPipeError))] ∧
      c2.status = 200 ∧ c2.size = -1 :=
  have h := C6_broken_records_error_only sampleRuntime sampleHook (some sampleWriter)
    brokenHandler sampleContext { sampleContext with index := 0 } (.error brokenPipeError) rfl
    (by decide) ⟨brokenPipeError, none, rfl, rfl⟩
  ⟨rfl, by decide, h.choose, h.choose_spec.choose, h.choose_spec.choose_spec.1,
    h.choose_spec.choose_spec.2.1, h.choose_spec.choose_spec.2.2.2.1,
    h.choose_spec.choose_spec.2.2.2.2.1⟩

/-- C8: when the handler chain returns without a panic, the middleware writes
no log entry, does not invoke the hook, and leaves the context (its errors,
status, size and position in the chain) as the handler chain left it. -/
theorem C8_success_is_noop (rt : Runtime) (f : Hook) (out : Option Writer) (next : Handler)
    (c c1 : Context) (hnext : next c = (c1, none)) :
    (RecoveryWithWriter rt f out next c).logged = [] ∧
    (RecoveryWithWriter rt f out next c).hookCalls = [] ∧
    (RecoveryWithWriter rt f out next c).ctx = c1 ∧
    (RecoveryWithWriter rt f out next c).ctx.Errors = c1.Errors ∧
    (RecoveryWithWriter rt f out next c).ctx.status = c1.status ∧
    (RecoveryWithWriter rt f out next c).ctx.IsAborted = c1.IsAborted ∧
    (RecoveryWithWriter rt f out next c).panic = none := by
  simp [RecoveryWithWriter, hnext]

/-- C8 at the handler that returns. -/
theorem C8_success_is_noop_witness :
    quietHandler sampleContext = ({ sampleContext with index := 0, status := 204 }, none) ∧
    (RecoveryWithWriter sampleRuntime sampleHook (some sampleWriter) quietHandler
        sampleContext).logged = [] ∧
    (RecoveryWithWriter sampleRuntime sampleHook (some sampleWriter) quietHandler
        sampleContext).hookCalls = [] ∧
    (RecoveryWithWriter sampleRuntime sampleHook (some sampleWriter) quietHandler
        sampleContext).ctx = { sampleContext with index := 0, status := 204 } :=
  have h := C8_success_is_noop sampleRuntime sampleHook (some sampleWriter) quietHandler
    sampleContext { sampleContext with index := 0, status := 204 } rfl
  ⟨rfl, h.1, h.2.1, h.2.2.1⟩

/-- C10: on every list of lines the header loop ends without a failure and
yields a list of the same length, in which a line whose first segment (the
text before the first colon, or the whole line without one) is exactly
`Authorization` has become `Authorization: *`, and every other line is
unchanged. -/
theorem C10_header_loop (lines : List GoString) :
    ∃ result, redactHeaders lines = some result ∧
      result.length = lines.length ∧
      ∀ i : Nat, result[i]? = (lines[i]?).map (fun line =>
        if firstSegment line = "Authorization".toList then "Authorization: *".toList
        else line) := by
  refine ⟨lines.map redactRule, redactHeaders_eq_map lines, List.length_map _ _, ?_⟩
  intro i
  rw [List.getElem?_map]
  rfl

/-- The header loop on lines with further colons, other capitalisation, a longer
name, no colon, a leading blank, and no text. -/
theorem redactHeaders_examples :
    redactHeaders ["Authorization: Basic a:b:c".toList, "authorization: x".toList,
        "Proxy-Authorization: y".toList, "Authorization".toList, " Authorization: z".toList,
        "".toList]
      = some ["Authorization: *".toList, "authorization: x".toList,
        "Proxy-Authorization: y".toList, "Authorization: *".toList,
        " Authorization: z".toList, "".toList] := by
  decide

end recovery
